import Mathlib

/-!
Verification of the FluMatch alignment-result tabulation pipeline
(`src/flumatch.py`): the Result Tabulator `tabulate_hsp_xml` and the
Report Writer `blast_report`.

The BLAST record model mirrors the Biopython objects the script consumes:
a record has a `query` identifier, a `query_length`, and a ranked list of
`alignments`; each alignment has a `hit_def` description, a subject
`length`, and a list of `hsps`; each HSP carries the counts, coordinates
and expect value read by the script.  Python integers are modelled by
`Int`; the float divisions of lines 89 and 91 are modelled by exact
rational arithmetic on `ℚ`; a Python exception escaping the generator is
modelled by an `Option PyError` alongside the rows yielded before the
exception.
-/

namespace FluMatch

/-- One high-scoring segment pair, with the fields read at lines 81-101. -/
structure Hsp where
  identities : Int
  align_length : Int
  query_start : Int
  query_end : Int
  sbjct_start : Int
  sbjct_end : Int
  expect : ℚ
deriving DecidableEq, Inhabited

/-- One candidate match (`aln` in the source): description, subject length,
and the ranked segment list `hsps`. -/
structure Alignment where
  hit_def : String
  length : Int
  hsps : List Hsp
deriving DecidableEq, Inhabited

/-- One query's BLAST record (`res` in the source). -/
structure BlastRecord where
  query : String
  query_length : Int
  alignments : List Alignment
deriving DecidableEq, Inhabited

/-- The 13-field tuple yielded at lines 103-117, as a named record. -/
structure MetricRow where
  query : String
  strain : String
  query_cov : ℚ
  identity_perc : ℚ
  identities : Int
  align_length : Int
  query_start : Int
  query_end : Int
  sbjct_start : Int
  sbjct_end : Int
  query_length : Int
  strain_length : Int
  e_value : ℚ
deriving DecidableEq, Inhabited

/-- The runtime exceptions the tabulator can raise: `aln.hsps[0]` on an
empty list (line 75) and float division by zero (lines 89 and 91). -/
inductive PyError where
  | indexError
  | zeroDivisionError
deriving DecidableEq

/-- The message Python attaches to each exception; neither mentions any
query or subject identifier. -/
def PyError.message : PyError → String
  | .indexError => "list index out of range"
  | .zeroDivisionError => "float division by zero"

/-- Python slice `l[0:n]` for an arbitrary integer `n` (line 73): a
non-negative `n` takes the first `n` elements; a negative `n` drops the
last `|n|` elements, clamped at the empty list. -/
def pySlice {α : Type} (l : List α) (n : Int) : List α :=
  if 0 ≤ n then l.take n.toNat else l.take (l.length - n.natAbs)

/-- The row built from a record, an alignment and its first HSP
(lines 77-117): `identity_perc = 100 * identities / align_length`
(line 89), `query_cov = |100 * align_length / query_length|` (line 91),
every other field passed through. -/
def mkRow (res : BlastRecord) (aln : Alignment) (hsp : Hsp) : MetricRow where
  query := res.query
  strain := aln.hit_def
  query_cov := |100 * (hsp.align_length : ℚ) / (res.query_length : ℚ)|
  identity_perc := 100 * (hsp.identities : ℚ) / (hsp.align_length : ℚ)
  identities := hsp.identities
  align_length := hsp.align_length
  query_start := hsp.query_start
  query_end := hsp.query_end
  sbjct_start := hsp.sbjct_start
  sbjct_end := hsp.sbjct_end
  query_length := res.query_length
  strain_length := aln.length
  e_value := hsp.expect

/-- Processing of one taken alignment: `aln.hsps[0]` raises `IndexError`
on an empty segment list (line 75); the division at line 89 raises
`ZeroDivisionError` when `align_length = 0`, and the one at line 91 when
`query_length = 0`; otherwise the row is yielded. -/
def tabulateRow (res : BlastRecord) (aln : Alignment) : Except PyError MetricRow :=
  match aln.hsps with
  | [] => .error .indexError
  | hsp :: _ =>
    if hsp.align_length = 0 then .error .zeroDivisionError
    else if res.query_length = 0 then .error .zeroDivisionError
    else .ok (mkRow res aln hsp)

/-- The inner loop of lines 73-117 over the taken alignments of one
record: rows yielded so far, plus the exception that aborted the loop,
if any. -/
def tabulateAlignments (res : BlastRecord) : List Alignment → List MetricRow × Option PyError
  | [] => ([], none)
  | aln :: rest =>
    match tabulateRow res aln with
    | .error e => ([], some e)
    | .ok row =>
      match tabulateAlignments res rest with
      | (rows, err) => (row :: rows, err)

/-- The generator `tabulate_hsp_xml(result, num_top_results)` of lines
70-117, run to exhaustion: the rows it yields in order, plus the
exception that terminated it, if any.  Each record contributes the rows
of its slice `alignments[0:num_top_results]`; an exception aborts the
whole iteration. -/
def tabulate_hsp_xml : List BlastRecord → Int → List MetricRow × Option PyError
  | [], _ => ([], none)
  | res :: rest, n =>
    match tabulateAlignments res (pySlice res.alignments n) with
    | (rows, some e) => (rows, some e)
    | (rows, none) =>
      match tabulate_hsp_xml rest n with
      | (more, err) => (rows ++ more, err)

/-- The header list of lines 121-135, in source order. -/
def headers : List String :=
  ["Query", "Matching Strain", "Query Coverage", "Percent ID", "Identities",
   "Alignment Length", "Query Start", "Query End", "Subject Start",
   "Subject End", "Query Length", "Strain Length", "e-value"]

/-- The 13 fields of one data row, rendered to text in the tuple order of
lines 103-117. -/
def rowFields (r : MetricRow) : List String :=
  [r.query, r.strain, toString r.query_cov, toString r.identity_perc,
   toString r.identities, toString r.align_length, toString r.query_start,
   toString r.query_end, toString r.sbjct_start, toString r.sbjct_end,
   toString r.query_length, toString r.strain_length, toString r.e_value]

/-- Whether `csv.writer` (QUOTE_MINIMAL, delimiter tab) must quote a
field: it contains the delimiter, the quote character, or a line break. -/
def needsQuoting (f : String) : Bool :=
  f.data.any (fun c => c == '\t' || c == '\"' || c == '\r' || c == '\n')

/-- Doubling of every quote character, as csv quoting does inside a
quoted field. -/
def doubleQuotes : List Char → List Char
  | [] => []
  | c :: cs => if c = '\"' then c :: c :: doubleQuotes cs else c :: doubleQuotes cs

/-- A field as `csv.writer` emits it: wrapped in quotes, inner quotes
doubled, exactly when quoting is needed. -/
def quoteField (f : String) : String :=
  if needsQuoting f then String.mk ('\"' :: doubleQuotes f.data ++ ['\"']) else f

/-- Join character lists with a single tab between consecutive fields. -/
def joinTabs : List (List Char) → List Char
  | [] => []
  | [f] => f
  | f :: g :: rest => f ++ '\t' :: joinTabs (g :: rest)

/-- One physical output line of `csv.writer(f, delimiter='\t')`: the
quoted fields joined by single tabs (the line terminator is not part of
the line). -/
def csvLine (fields : List String) : String :=
  String.mk (joinTabs ((fields.map quoteField).map String.data))

/-- Re-splitting a character list on the tab character. -/
def splitTabsAux : List Char → List (List Char)
  | [] => [[]]
  | c :: cs =>
    if c = '\t' then [] :: splitTabsAux cs
    else
      match splitTabsAux cs with
      | [] => [[c]]
      | f :: fs => (c :: f) :: fs

/-- Re-splitting an output line on the tab character, as the round-trip
property of the spec does. -/
def splitTabs (s : String) : List String :=
  (splitTabsAux s.data).map String.mk

/-- `blast_report` of lines 119-144, viewed as the list of lines that
reach the destination file: the header line, then one line per row the
generator yields before terminating; the exception, if any, propagates
after those lines are written. -/
def blast_report (result : List BlastRecord) (num_top_results : Int) :
    List String × Option PyError :=
  let p := tabulate_hsp_xml result num_top_results
  (csvLine headers :: p.1.map (fun r => csvLine (rowFields r)), p.2)

/-- An alignment whose processing cannot raise: a first HSP exists and
its `align_length` is not zero. -/
def validAln (aln : Alignment) : Prop :=
  aln.hsps ≠ [] ∧ aln.hsps.headI.align_length ≠ 0

instance (aln : Alignment) : Decidable (validAln aln) := by
  unfold validAln; infer_instance

/-- A record none of whose alignments can raise. -/
def ValidRecord (res : BlastRecord) : Prop :=
  res.query_length ≠ 0 ∧ ∀ aln ∈ res.alignments, validAln aln

instance (res : BlastRecord) : Decidable (ValidRecord res) := by
  unfold ValidRecord; infer_instance

/-! Concrete sample inputs, used to instantiate the theorems below. -/

/-- The segment of spec Scenario A: 95 identities over length 100. -/
def hspW : Hsp :=
  { identities := 95, align_length := 100, query_start := 1, query_end := 100,
    sbjct_start := 1, sbjct_end := 100, expect := 0 }

/-- A match holding only `hspW`. -/
def alnW : Alignment := { hit_def := "strainA", length := 120, hsps := [hspW] }

/-- A query of length 100 with the single match `alnW`. -/
def recW : BlastRecord := { query := "q1", query_length := 100, alignments := [alnW] }

/-- A segment with a negative `align_length`. -/
def hspNeg : Hsp := { hspW with align_length := -50 }

/-- A match holding only `hspNeg`. -/
def alnNeg : Alignment := { alnW with hsps := [hspNeg] }

/-- A query whose only match has a negative first `align_length`. -/
def recNeg : BlastRecord := { recW with alignments := [alnNeg] }

/-- A segment with `align_length = 0`. -/
def hspZero : Hsp := { hspW with align_length := 0 }

/-- A match holding only `hspZero`. -/
def alnZero : Alignment := { alnW with hsps := [hspZero] }

/-- A query whose only match has first `align_length = 0`. -/
def recZero : BlastRecord := { recW with alignments := [alnZero] }

/-- A query whose identifier contains a tab character. -/
def recTab : BlastRecord := { recW with query := "a\tb" }

/-- A match with an empty segment list. -/
def alnEmpty : Alignment := { alnW with hsps := [] }

/-- A query whose only match has no segments. -/
def recEmpty : BlastRecord := { recW with alignments := [alnEmpty] }

/-- A query with three matches, for the truncation scenarios. -/
def recThree : BlastRecord :=
  { query := "q3", query_length := 100,
    alignments := [alnW, { alnW with hit_def := "strainB" },
                   { alnW with hit_def := "strainC" }] }

/-! Helper lemmas. -/

theorem pySlice_nonneg {α : Type} {n : Int} (hn : 0 ≤ n) (l : List α) :
    pySlice l n = l.take n.toNat := if_pos hn

theorem pySlice_subset {α : Type} (l : List α) (n : Int) : pySlice l n ⊆ l := by
  unfold pySlice
  split <;> exact List.take_subset _ _

theorem tabulateRow_valid (res : BlastRecord) (aln : Alignment)
    (h : validAln aln) (hq : res.query_length ≠ 0) :
    tabulateRow res aln = .ok (mkRow res aln aln.hsps.headI) := by
  obtain ⟨hne, hal⟩ := h
  cases hhs : aln.hsps with
  | nil => exact absurd hhs hne
  | cons hsp rest =>
    rw [hhs] at hal
    unfold tabulateRow
    rw [hhs]
    simp only [List.headI] at hal ⊢
    rw [if_neg hal, if_neg hq]

theorem tabulateAlignments_valid (res : BlastRecord) (hq : res.query_length ≠ 0) :
    ∀ alns : List Alignment, (∀ aln ∈ alns, validAln aln) →
      tabulateAlignments res alns
        = (alns.map fun aln => mkRow res aln aln.hsps.headI, none) := by
  intro alns
  induction alns with
  | nil => intro _; rfl
  | cons aln rest ih =>
    intro h
    have h1 := tabulateRow_valid res aln (h aln (List.mem_cons_self aln rest)) hq
    have h2 := ih fun a ha => h a (List.mem_cons_of_mem _ ha)
    unfold tabulateAlignments
    rw [h1, h2]
    rfl

theorem tabulate_valid (n : Int) :
    ∀ result : List BlastRecord, (∀ res ∈ result, ValidRecord res) →
      tabulate_hsp_xml result n
        = (result.flatMap (fun res =>
            (pySlice res.alignments n).map fun aln => mkRow res aln aln.hsps.headI), none) := by
  intro result
  induction result with
  | nil => intro _; rfl
  | cons res rest ih =>
    intro h
    obtain ⟨hq, hv⟩ := h res (List.mem_cons_self res rest)
    have h1 := tabulateAlignments_valid res hq (pySlice res.alignments n)
      fun a ha => hv a (pySlice_subset res.alignments n ha)
    have h2 := ih fun r hr => h r (List.mem_cons_of_mem _ hr)
    unfold tabulate_hsp_xml
    rw [h1, h2, List.flatMap_cons]

/-! Claim theorems. -/

/-- C1: for every input sequence of records and every `top_n = n ≥ 0`
(on well-formed records), the tabulator emits, for each record with `k`
matches, exactly `min(k, n)` rows — one per taken match, built from that
match — in the same relative order as the input `matches` sequence, and
all rows of an earlier query are emitted before any row of a later one
(the output is the in-order concatenation of the per-query row lists),
with no exception raised. -/
theorem tabulate_top_n_min_rows (result : List BlastRecord) (n : Int)
    (hn : 0 ≤ n) (hv : ∀ res ∈ result, ValidRecord res) :
    tabulate_hsp_xml result n
      = (result.flatMap (fun res =>
          (res.alignments.take n.toNat).map fun aln => mkRow res aln aln.hsps.headI), none)
    ∧ ∀ res ∈ result,
        ((res.alignments.take n.toNat).map fun aln => mkRow res aln aln.hsps.headI).length
          = min res.alignments.length n.toNat := by
  constructor
  · rw [tabulate_valid n result hv]
    simp only [pySlice_nonneg hn]
  · intro res _
    rw [List.length_map, List.length_take, Nat.min_comm]

/-- Witness for C1 at spec Scenario B: one query with three matches and
`top_n = 2` yields exactly the rows of the first two matches, in order. -/
theorem tabulate_top_n_min_rows_witness :
    tabulate_hsp_xml [recThree] 2
      = ([recThree].flatMap (fun res =>
          (res.alignments.take (2 : Int).toNat).map fun aln => mkRow res aln aln.hsps.headI),
         none) :=
  (tabulate_top_n_min_rows [recThree] 2 (by decide) (by decide)).1

/-- C2: a taken match's row is computed exclusively from its first
segment: `identity_perc = 100 * identities / align_length` (no absolute
value), `query_cov = |100 * align_length / query_length|` (absolute
value), all other fields passed through unchanged; replacing the later
segments does not change the result. -/
theorem row_from_first_segment (res : BlastRecord) (aln : Alignment)
    (hsp : Hsp) (rest : List Hsp) (hh : aln.hsps = hsp :: rest)
    (ha : hsp.align_length ≠ 0) (hq : res.query_length ≠ 0) :
    tabulateRow res aln = .ok (mkRow res aln hsp)
    ∧ (mkRow res aln hsp).identity_perc
        = 100 * (hsp.identities : ℚ) / (hsp.align_length : ℚ)
    ∧ (mkRow res aln hsp).query_cov
        = |100 * (hsp.align_length : ℚ) / (res.query_length : ℚ)|
    ∧ (mkRow res aln hsp).query = res.query
    ∧ (mkRow res aln hsp).strain = aln.hit_def
    ∧ (mkRow res aln hsp).identities = hsp.identities
    ∧ (mkRow res aln hsp).align_length = hsp.align_length
    ∧ (mkRow res aln hsp).query_start = hsp.query_start
    ∧ (mkRow res aln hsp).query_end = hsp.query_end
    ∧ (mkRow res aln hsp).sbjct_start = hsp.sbjct_start
    ∧ (mkRow res aln hsp).sbjct_end = hsp.sbjct_end
    ∧ (mkRow res aln hsp).query_length = res.query_length
    ∧ (mkRow res aln hsp).strain_length = aln.length
    ∧ (mkRow res aln hsp).e_value = hsp.expect
    ∧ ∀ rest2 : List Hsp,
        tabulateRow res { aln with hsps := hsp :: rest2 } = .ok (mkRow res aln hsp) := by
  have hrow : tabulateRow res aln = .ok (mkRow res aln hsp) := by
    unfold tabulateRow
    rw [hh]
    simp only [if_neg ha, if_neg hq]
  refine ⟨hrow, rfl, rfl, rfl, rfl, rfl, rfl, rfl, rfl, rfl, rfl, rfl, rfl, rfl, ?_⟩
  intro rest2
  unfold tabulateRow
  simp only [if_neg ha, if_neg hq]
  rfl

/-- Witness for C2 at spec Scenario A's record. -/
theorem row_from_first_segment_witness :
    tabulateRow recW alnW = .ok (mkRow recW alnW hspW) :=
  (row_from_first_segment recW alnW hspW [] rfl (by decide) (by decide)).1

/-- C8: the tabulator is deterministic — two runs on the same input with
the same `top_n` produce identical outputs. -/
theorem tabulate_deterministic (result : List BlastRecord) (n : Int)
    (out1 out2 : List MetricRow × Option PyError)
    (h1 : out1 = tabulate_hsp_xml result n) (h2 : out2 = tabulate_hsp_xml result n) :
    out1 = out2 := h1.trans h2.symm

/-- Witness for C8 at a concrete input. -/
theorem tabulate_deterministic_witness :
    tabulate_hsp_xml [recW] 10 = tabulate_hsp_xml [recW] 10 :=
  tabulate_deterministic [recW] 10 _ _ rfl rfl

/-- C9: for a negative `top_n = -m` (`m ≥ 1`), a well-formed record with
`k` matches yields `k - m` rows (truncated subtraction, i.e.
`max (k - m) 0`), namely the rows of all but the last `m` matches, with
no exception raised, because the selection is the Python slice
`matches[0:top_n]`. -/
theorem tabulate_negative_top_n (m : Nat) (hm : 1 ≤ m)
    (res : BlastRecord) (hv : ValidRecord res) :
    tabulate_hsp_xml [res] (-(m : Int))
      = ((res.alignments.take (res.alignments.length - m)).map
          fun aln => mkRow res aln aln.hsps.headI, none)
    ∧ (tabulate_hsp_xml [res] (-(m : Int))).1.length = res.alignments.length - m := by
  have hneg : ¬ (0 ≤ -(m : Int)) := by omega
  have hslice : pySlice res.alignments (-(m : Int))
      = res.alignments.take (res.alignments.length - m) := by
    unfold pySlice
    rw [if_neg hneg]
    congr 1
    omega
  have hmain : tabulate_hsp_xml [res] (-(m : Int))
      = ((res.alignments.take (res.alignments.length - m)).map
          fun aln => mkRow res aln aln.hsps.headI, none) := by
    rw [tabulate_valid (-(m : Int)) [res]
      (by intro r hr; rw [List.mem_singleton] at hr; rw [hr]; exact hv)]
    rw [List.flatMap_cons, List.flatMap_nil, List.append_nil, hslice]
  refine ⟨hmain, ?_⟩
  rw [hmain]
  simp only [List.length_map, List.length_take]
  omega

/-- Witness for C9: three matches, `top_n = -2` ⇒ one row. -/
theorem tabulate_negative_top_n_witness :
    (tabulate_hsp_xml [recThree] (-((2 : Nat) : Int))).1.length
      = recThree.alignments.length - 2 :=
  (tabulate_negative_top_n 2 (by decide) recThree (by decide)).2

/-- C3 counterexample: a taken match whose first segment has
`align_length = -50 ≤ 0` does not make the tabulator fail — a row IS
emitted for it and no error of any kind is raised, refuting the claim
that any `alignment_length ≤ 0` fails with an error and emits no row. -/
theorem negative_align_length_emits_row :
    hspNeg.align_length ≤ 0
    ∧ alnNeg.hsps = [hspNeg]
    ∧ recNeg.alignments = [alnNeg]
    ∧ tabulate_hsp_xml [recNeg] 10 = ([mkRow recNeg alnNeg hspNeg], none) := by
  refine ⟨by decide, rfl, rfl, rfl⟩

/-- C3 amended: only `alignment_length = 0` (line 89) or
`query_length = 0` (line 91) make the tabulator fail, with a
`ZeroDivisionError` whose message is the fixed string
"float division by zero" — containing no query or subject identifier —
and no row is emitted for that match; when both values are nonzero the
match's row is emitted (in particular negative values raise nothing). -/
theorem tabulate_zero_division (res : BlastRecord) (aln : Alignment)
    (hsp : Hsp) (rest : List Hsp) (others : List Alignment)
    (hh : aln.hsps = hsp :: rest) :
    (hsp.align_length = 0 →
      tabulateRow res aln = .error .zeroDivisionError
      ∧ tabulateAlignments res (aln :: others) = ([], some .zeroDivisionError))
    ∧ (hsp.align_length ≠ 0 → res.query_length = 0 →
      tabulateRow res aln = .error .zeroDivisionError
      ∧ tabulateAlignments res (aln :: others) = ([], some .zeroDivisionError))
    ∧ PyError.zeroDivisionError.message = "float division by zero"
    ∧ (hsp.align_length ≠ 0 → res.query_length ≠ 0 →
      tabulateRow res aln = .ok (mkRow res aln hsp)) := by
  refine ⟨?_, ?_, rfl, ?_⟩
  · intro ha
    have hrow : tabulateRow res aln = .error .zeroDivisionError := by
      unfold tabulateRow
      rw [hh]
      simp only [if_pos ha]
    refine ⟨hrow, ?_⟩
    unfold tabulateAlignments
    rw [hrow]
  · intro ha hq
    have hrow : tabulateRow res aln = .error .zeroDivisionError := by
      unfold tabulateRow
      rw [hh]
      simp only [if_neg ha, if_pos hq]
    refine ⟨hrow, ?_⟩
    unfold tabulateAlignments
    rw [hrow]
  · intro ha hq
    unfold tabulateRow
    rw [hh]
    simp only [if_neg ha, if_neg hq]

/-- Witness for the amended C3 at a first segment with
`align_length = 0`: the match yields no row and a `ZeroDivisionError`. -/
theorem tabulate_zero_division_witness :
    tabulateAlignments recZero [alnZero] = ([], some .zeroDivisionError) :=
  ((tabulate_zero_division recZero alnZero hspZero [] [] rfl).1 rfl).2

/-- C5: whenever the first segment satisfies
`0 ≤ identical_positions ≤ alignment_length` and `alignment_length ≥ 1`,
the row's `identity_perc` lies in `[0, 100]`, and equality of the counts
forces exactly `100`. -/
theorem identity_perc_bounds (res : BlastRecord) (aln : Alignment) (hsp : Hsp)
    (h0 : 0 ≤ hsp.identities) (h1 : hsp.identities ≤ hsp.align_length)
    (h2 : 1 ≤ hsp.align_length) :
    0 ≤ (mkRow res aln hsp).identity_perc
    ∧ (mkRow res aln hsp).identity_perc ≤ 100
    ∧ (hsp.identities = hsp.align_length → (mkRow res aln hsp).identity_perc = 100) := by
  have ha0 : (0 : Int) < hsp.align_length := by omega
  have ha : (0 : ℚ) < (hsp.align_length : ℚ) := by exact_mod_cast ha0
  have hi : (0 : ℚ) ≤ (hsp.identities : ℚ) := by exact_mod_cast h0
  have hia : (hsp.identities : ℚ) ≤ (hsp.align_length : ℚ) := by exact_mod_cast h1
  refine ⟨?_, ?_, ?_⟩
  · show 0 ≤ 100 * (hsp.identities : ℚ) / (hsp.align_length : ℚ)
    exact div_nonneg (by linarith) ha.le
  · show 100 * (hsp.identities : ℚ) / (hsp.align_length : ℚ) ≤ 100
    rw [div_le_iff₀ ha]
    linarith
  · intro he
    have heq : (hsp.identities : ℚ) = (hsp.align_length : ℚ) := by exact_mod_cast he
    show 100 * (hsp.identities : ℚ) / (hsp.align_length : ℚ) = 100
    rw [heq, mul_div_assoc, div_self ha.ne', mul_one]

/-- Witness for C5 at Scenario A's segment (95 of 100). -/
theorem identity_perc_bounds_witness :
    0 ≤ (mkRow recW alnW hspW).identity_perc
    ∧ (mkRow recW alnW hspW).identity_perc ≤ 100
    ∧ (hspW.identities = hspW.align_length → (mkRow recW alnW hspW).identity_perc = 100) :=
  identity_perc_bounds recW alnW hspW (by decide) (by decide) (by decide)

theorem tabulateRow_ok_inv {res : BlastRecord} {aln : Alignment} {r : MetricRow}
    (h : tabulateRow res aln = .ok r) :
    ∃ hsp rest, aln.hsps = hsp :: rest ∧ r = mkRow res aln hsp := by
  unfold tabulateRow at h
  cases hhs : aln.hsps with
  | nil => rw [hhs] at h; exact absurd h (by simp)
  | cons hsp rest =>
    rw [hhs] at h
    by_cases h1 : hsp.align_length = 0
    · simp [h1] at h
    · by_cases h2 : res.query_length = 0
      · simp [h1, h2] at h
      · simp only [h1, h2, if_false, if_neg h1, if_neg h2, Except.ok.injEq] at h
        exact ⟨hsp, rest, rfl, h.symm⟩

theorem mem_tabulateAlignments_cov (res : BlastRecord) :
    ∀ (alns : List Alignment) (r : MetricRow),
      r ∈ (tabulateAlignments res alns).1 → 0 ≤ r.query_cov := by
  intro alns
  induction alns with
  | nil => intro r hr; exact absurd hr (by simp [tabulateAlignments])
  | cons aln rest ih =>
    intro r hr
    unfold tabulateAlignments at hr
    cases htr : tabulateRow res aln with
    | error e => rw [htr] at hr; exact absurd hr (by simp)
    | ok row =>
      rw [htr] at hr
      rcases hrec : tabulateAlignments res rest with ⟨rows, err⟩
      rw [hrec] at hr
      simp only [List.mem_cons] at hr
      cases hr with
      | inl hr =>
        obtain ⟨hsp, rest2, _, hrow⟩ := tabulateRow_ok_inv htr
        rw [hr, hrow]
        exact abs_nonneg _
      | inr hr =>
        apply ih r
        rw [hrec]
        exact hr

/-- C6: every row the tabulator emits has a non-negative
`query_cov`, whatever the signs of the input values, because line 91
takes an absolute value. -/
theorem coverage_nonneg (result : List BlastRecord) (n : Int) (r : MetricRow)
    (hr : r ∈ (tabulate_hsp_xml result n).1) : 0 ≤ r.query_cov := by
  induction result with
  | nil => exact absurd hr (by simp [tabulate_hsp_xml])
  | cons res rest ih =>
    unfold tabulate_hsp_xml at hr
    rcases halns : tabulateAlignments res (pySlice res.alignments n) with ⟨rows, err⟩
    rw [halns] at hr
    cases err with
    | some e =>
      apply mem_tabulateAlignments_cov res (pySlice res.alignments n) r
      rw [halns]
      exact hr
    | none =>
      rcases hrest : tabulate_hsp_xml rest n with ⟨more, err2⟩
      rw [hrest] at hr
      simp only [List.mem_append] at hr
      cases hr with
      | inl hr =>
        apply mem_tabulateAlignments_cov res (pySlice res.alignments n) r
        rw [halns]
        exact hr
      | inr hr =>
        apply ih
        rw [hrest]
        exact hr

/-- Witness for C6: the row of `recNeg` (negative `align_length`) still
has non-negative coverage. -/
theorem coverage_nonneg_witness : 0 ≤ (mkRow recNeg alnNeg hspNeg).query_cov :=
  coverage_nonneg [recNeg] 10 (mkRow recNeg alnNeg hspNeg) (by
    have h : (tabulate_hsp_xml [recNeg] 10).1 = [mkRow recNeg alnNeg hspNeg] := rfl
    rw [h]
    exact List.mem_singleton_self _)

theorem tabulateRow_not_index (res : BlastRecord) (aln : Alignment)
    (h : aln.hsps ≠ []) : tabulateRow res aln ≠ .error .indexError := by
  unfold tabulateRow
  cases hhs : aln.hsps with
  | nil => exact absurd hhs h
  | cons hsp rest =>
    by_cases h1 : hsp.align_length = 0 <;> by_cases h2 : res.query_length = 0 <;>
      simp [h1, h2]

theorem tabulateAlignments_not_index (res : BlastRecord) :
    ∀ alns : List Alignment, (∀ a ∈ alns, a.hsps ≠ []) →
      (tabulateAlignments res alns).2 ≠ some .indexError := by
  intro alns
  induction alns with
  | nil => intro _; simp [tabulateAlignments]
  | cons aln rest ih =>
    intro h
    unfold tabulateAlignments
    cases htr : tabulateRow res aln with
    | error e =>
      have : e ≠ .indexError := by
        intro he
        rw [he] at htr
        exact tabulateRow_not_index res aln (h aln (List.mem_cons_self aln rest)) htr
      simpa using this
    | ok row =>
      rcases hrec : tabulateAlignments res rest with ⟨rows, err⟩
      have := ih fun a ha => h a (List.mem_cons_of_mem _ ha)
      rw [hrec] at this
      simpa using this

theorem tabulate_not_index :
    ∀ (result : List BlastRecord) (n : Int),
      (∀ res ∈ result, ∀ a ∈ pySlice res.alignments n, a.hsps ≠ []) →
      (tabulate_hsp_xml result n).2 ≠ some .indexError := by
  intro result n
  induction result with
  | nil => intro _; simp [tabulate_hsp_xml]
  | cons res rest ih =>
    intro h
    unfold tabulate_hsp_xml
    rcases halns : tabulateAlignments res (pySlice res.alignments n) with ⟨rows, err⟩
    have hhd := tabulateAlignments_not_index res (pySlice res.alignments n)
      (h res (List.mem_cons_self res rest))
    rw [halns] at hhd
    cases err with
    | some e => simpa using hhd
    | none =>
      rcases hrest : tabulate_hsp_xml rest n with ⟨more, err2⟩
      have := ih fun r hr => h r (List.mem_cons_of_mem _ hr)
      rw [hrest] at this
      simpa using this

/-- C10: a taken match with an empty segment list makes the tabulator
fail with an `IndexError` (the out-of-bounds `aln.hsps[0]` of line 75) —
not a row, and not the division error — aborting the iteration with no
row for that match; and when every taken match has at least one segment,
no `IndexError` can occur. -/
theorem empty_segments_index_error (res : BlastRecord) (aln : Alignment)
    (others : List Alignment) (result : List BlastRecord) (n : Int)
    (he : aln.hsps = [])
    (hall : ∀ r ∈ result, ∀ a ∈ pySlice r.alignments n, a.hsps ≠ []) :
    tabulateRow res aln = .error .indexError
    ∧ tabulateAlignments res (aln :: others) = ([], some .indexError)
    ∧ PyError.indexError ≠ PyError.zeroDivisionError
    ∧ PyError.indexError.message = "list index out of range"
    ∧ (tabulate_hsp_xml result n).2 ≠ some .indexError := by
  have hrow : tabulateRow res aln = .error .indexError := by
    unfold tabulateRow
    rw [he]
  refine ⟨hrow, ?_, by decide, rfl, tabulate_not_index result n hall⟩
  unfold tabulateAlignments
  rw [hrow]

/-- Witness for C10: a record whose only match has no segments raises
`IndexError`; a record with segments everywhere cannot. -/
theorem empty_segments_index_error_witness :
    tabulateAlignments recEmpty [alnEmpty] = ([], some .indexError)
    ∧ (tabulate_hsp_xml [recW] 10).2 ≠ some .indexError :=
  ⟨(empty_segments_index_error recEmpty alnEmpty [] [recW] 10 rfl (by decide)).2.1,
   (empty_segments_index_error recEmpty alnEmpty [] [recW] 10 rfl (by decide)).2.2.2.2⟩

theorem tabulate_cons_some (res : BlastRecord) (rest : List BlastRecord) (n : Int)
    (rows : List MetricRow) (e : PyError)
    (h : tabulateAlignments res (pySlice res.alignments n) = (rows, some e)) :
    tabulate_hsp_xml (res :: rest) n = (rows, some e) := by
  simp only [tabulate_hsp_xml, h]

theorem tabulate_cons_none (res : BlastRecord) (rest : List BlastRecord) (n : Int)
    (rows : List MetricRow)
    (h : tabulateAlignments res (pySlice res.alignments n) = (rows, none)) :
    tabulate_hsp_xml (res :: rest) n
      = (rows ++ (tabulate_hsp_xml rest n).1, (tabulate_hsp_xml rest n).2) := by
  simp only [tabulate_hsp_xml, h]

theorem tabulate_hsp_xml_append (rs rs' : List BlastRecord) (n : Int)
    (h : (tabulate_hsp_xml rs n).2 = none) :
    tabulate_hsp_xml (rs ++ rs') n
      = ((tabulate_hsp_xml rs n).1 ++ (tabulate_hsp_xml rs' n).1,
         (tabulate_hsp_xml rs' n).2) := by
  induction rs with
  | nil => simp [tabulate_hsp_xml]
  | cons res rest ih =>
    rcases halns : tabulateAlignments res (pySlice res.alignments n) with ⟨rows, err⟩
    cases err with
    | some e =>
      rw [tabulate_cons_some res rest n rows e halns] at h
      simp at h
    | none =>
      rw [tabulate_cons_none res rest n rows halns] at h
      simp only at h
      rw [List.cons_append, tabulate_cons_none res (rest ++ rs') n rows halns,
        ih h, tabulate_cons_none res rest n rows halns]
      simp [List.append_assoc]

/-- C7: once the tabulator has finished some records without an
exception, appending further records — even records on which it fails —
leaves every row already emitted for the earlier records unchanged as a
prefix of the output, and the written report keeps the header and those
earlier rows' lines in place before the failure point. -/
theorem earlier_rows_preserved (rs rs' : List BlastRecord) (n : Int)
    (h : (tabulate_hsp_xml rs n).2 = none) :
    tabulate_hsp_xml (rs ++ rs') n
      = ((tabulate_hsp_xml rs n).1 ++ (tabulate_hsp_xml rs' n).1,
         (tabulate_hsp_xml rs' n).2)
    ∧ (blast_report (rs ++ rs') n).1
      = csvLine headers
        :: ((tabulate_hsp_xml rs n).1.map (fun r => csvLine (rowFields r))
            ++ (tabulate_hsp_xml rs' n).1.map (fun r => csvLine (rowFields r))) := by
  have hmain := tabulate_hsp_xml_append rs rs' n h
  refine ⟨hmain, ?_⟩
  unfold blast_report
  rw [hmain]
  simp [List.map_append]

/-- Witness for C7: a valid record followed by one that raises — the
valid record's row stays, the error comes from the second record. -/
theorem earlier_rows_preserved_witness :
    tabulate_hsp_xml ([recW] ++ [recZero]) 10
      = ((tabulate_hsp_xml [recW] 10).1 ++ (tabulate_hsp_xml [recZero] 10).1,
         (tabulate_hsp_xml [recZero] 10).2) :=
  (earlier_rows_preserved [recW] [recZero] 10 rfl).1

theorem not_quoting_no_tab {f : String} (h : needsQuoting f = false) :
    '\t' ∉ f.data := by
  unfold needsQuoting at h
  rw [List.any_eq_false] at h
  intro hmem
  have := h '\t' hmem
  simp at this

theorem quoteField_eq {f : String} (h : needsQuoting f = false) :
    quoteField f = f := by
  unfold quoteField
  rw [h]
  rfl

theorem splitTabsAux_no_tab : ∀ f : List Char, '\t' ∉ f → splitTabsAux f = [f] := by
  intro f
  induction f with
  | nil => intro _; rfl
  | cons c cs ih =>
    intro h
    have hc : ¬ c = '\t' := fun hc => h (by rw [hc]; exact List.mem_cons_self _ _)
    have hcs : '\t' ∉ cs := fun hm => h (List.mem_cons_of_mem _ hm)
    unfold splitTabsAux
    rw [ih hcs, if_neg hc]

theorem splitTabsAux_append : ∀ f rest : List Char, '\t' ∉ f →
    splitTabsAux (f ++ '\t' :: rest) = f :: splitTabsAux rest := by
  intro f
  induction f with
  | nil =>
    intro rest _
    show splitTabsAux ('\t' :: rest) = [] :: splitTabsAux rest
    simp [splitTabsAux]
  | cons c cs ih =>
    intro rest h
    have hc : ¬ c = '\t' := fun hc => h (by rw [hc]; exact List.mem_cons_self _ _)
    have hcs : '\t' ∉ cs := fun hm => h (List.mem_cons_of_mem _ hm)
    show splitTabsAux (c :: (cs ++ '\t' :: rest)) = (c :: cs) :: splitTabsAux rest
    simp only [splitTabsAux, ih rest hcs, if_neg hc]

theorem splitTabsAux_joinTabs : ∀ fields : List (List Char), fields ≠ [] →
    (∀ f ∈ fields, '\t' ∉ f) → splitTabsAux (joinTabs fields) = fields := by
  intro fields
  induction fields with
  | nil => intro h; exact absurd rfl h
  | cons f rest ih =>
    intro _ h
    cases rest with
    | nil =>
      show splitTabsAux (joinTabs [f]) = [f]
      exact splitTabsAux_no_tab f (h f (List.mem_cons_self _ _))
    | cons g rest2 =>
      show splitTabsAux (joinTabs (f :: g :: rest2)) = f :: g :: rest2
      rw [show joinTabs (f :: g :: rest2) = f ++ '\t' :: joinTabs (g :: rest2) from rfl]
      rw [splitTabsAux_append f _ (h f (List.mem_cons_self _ _))]
      rw [ih (by simp) fun x hx => h x (List.mem_cons_of_mem _ hx)]

theorem splitTabs_csvLine (fields : List String) (hne : fields ≠ [])
    (h : ∀ f ∈ fields, needsQuoting f = false) :
    splitTabs (csvLine fields) = fields := by
  have hq : fields.map quoteField = fields := by
    rw [show fields.map quoteField = fields.map id from
      List.map_congr_left fun f hf => quoteField_eq (h f hf)]
    exact List.map_id fields
  unfold splitTabs csvLine
  rw [hq]
  show (splitTabsAux (joinTabs (fields.map String.data))).map String.mk = fields
  rw [splitTabsAux_joinTabs (fields.map String.data) (by simpa using hne) ?side]
  case side =>
    intro x hx
    rw [List.mem_map] at hx
    obtain ⟨s, hs, hxs⟩ := hx
    rw [← hxs]
    exact not_quoting_no_tab (h s hs)
  rw [List.map_map]
  rw [show fields.map (String.mk ∘ String.data) = fields.map id from
    List.map_congr_left fun s _ => rfl]
  exact List.map_id fields

theorem rowFields_recW : rowFields (mkRow recW alnW hspW)
    = ["q1", "strainA", "100", "95", "95", "100", "1", "100", "1", "100",
       "100", "120", "0"] := by
  have habs : (mkRow recW alnW hspW).query_cov = 100 := by
    show |100 * ((100 : Int) : ℚ) / ((100 : Int) : ℚ)| = 100
    norm_num
  have hid : (mkRow recW alnW hspW).identity_perc = 95 := by
    show 100 * ((95 : Int) : ℚ) / ((100 : Int) : ℚ) = 95
    norm_num
  unfold rowFields
  rw [habs, hid]
  decide

theorem rowFields_recTab : rowFields (mkRow recTab alnW hspW)
    = ["a\tb", "strainA", "100", "95", "95", "100", "1", "100", "1", "100",
       "100", "120", "0"] := by
  have habs : (mkRow recTab alnW hspW).query_cov = 100 := by
    show |100 * ((100 : Int) : ℚ) / ((100 : Int) : ℚ)| = 100
    norm_num
  have hid : (mkRow recTab alnW hspW).identity_perc = 95 := by
    show 100 * ((95 : Int) : ℚ) / ((100 : Int) : ℚ) = 95
    norm_num
  unfold rowFields
  rw [habs, hid]
  decide

/-- C4 counterexample: a query identifier containing a tab character —
`recTab.query = "a\tb"` — makes `csv.writer` quote that field, and the
written data row re-splits on the tab character into 14 fields, not 13,
refuting the unconditional round-trip claim. -/
theorem tab_in_query_breaks_round_trip :
    recTab.query = "a\tb"
    ∧ (blast_report [recTab] 10).1.map (fun s => (splitTabs s).length) = [13, 14] := by
  refine ⟨rfl, ?_⟩
  have h1 : (blast_report [recTab] 10).1
      = [csvLine headers, csvLine (rowFields (mkRow recTab alnW hspW))] := rfl
  rw [h1, List.map_cons, List.map_cons, List.map_nil, rowFields_recTab]
  decide

/-- C4 amended: the report is the exact 13-name header line followed by
one tab-joined line per emitted row in order (an empty row sequence
yields only the header), and — provided a row's 13 rendered fields
contain no tab, quote, or line-break character, so that `csv.writer`
applies no quoting — re-splitting its line on the tab character
reconstructs exactly those 13 fields. -/
theorem report_round_trip (result : List BlastRecord) (n : Int) (r : MetricRow)
    (hr : ∀ f ∈ rowFields r, needsQuoting f = false) :
    (blast_report result n).1
      = csvLine headers :: (tabulate_hsp_xml result n).1.map (fun x => csvLine (rowFields x))
    ∧ headers.length = 13
    ∧ splitTabs (csvLine headers) = headers
    ∧ (rowFields r).length = 13
    ∧ splitTabs (csvLine (rowFields r)) = rowFields r
    ∧ ((tabulate_hsp_xml result n).1 = [] → (blast_report result n).1 = [csvLine headers]) := by
  refine ⟨rfl, rfl, ?_, rfl, ?_, ?_⟩
  · exact splitTabs_csvLine headers (by decide) (by decide)
  · exact splitTabs_csvLine (rowFields r) (by simp [rowFields]) hr
  · intro h0
    rw [show (blast_report result n).1
        = csvLine headers :: (tabulate_hsp_xml result n).1.map (fun x => csvLine (rowFields x))
      from rfl, h0]
    rfl

/-- Witness for the amended C4 at Scenario A's single row. -/
theorem report_round_trip_witness :
    splitTabs (csvLine (rowFields (mkRow recW alnW hspW))) = rowFields (mkRow recW alnW hspW) :=
  (report_round_trip [recW] 10 (mkRow recW alnW hspW)
    (by rw [rowFields_recW]; decide)).2.2.2.2.1

end FluMatch
